import Mathlib

/-
Verification of `url_date_google.py` (iris-timetomarket).

Strings are modelled as `List Char`.  Python regular expressions are
modelled by specialized backtracking matchers for the exact patterns the
script compiles, and `datetime.strptime` / `strftime` are modelled for the
exact format strings the script passes (`%b %d, %Y`, `%B %d, %Y`, `%Y`,
output `%Y-%m-%d`), following CPython `_strptime`: whitespace in a format
matches one or more whitespace characters, month names are matched
case-insensitively against the C-locale tables, `%d` is the alternation
`3[01]|[12]\x5cd|0[1-9]|[1-9]`, `%Y` is exactly four digits, the whole
string must be consumed, and the resulting calendar date must be valid
(otherwise `strptime` raises and the script falls through to the next
format).
-/

-- ---------------------------------------------------------------------------
-- Character classes
-- ---------------------------------------------------------------------------

def isAsciiUpper (c : Char) : Bool := decide ('A' ≤ c ∧ c ≤ 'Z')

def isAsciiLower (c : Char) : Bool := decide ('a' ≤ c ∧ c ≤ 'z')

def isAsciiAlpha (c : Char) : Bool := isAsciiUpper c || isAsciiLower c

/-- Python `str.lower`, restricted to the ASCII letters that the matched
patterns can contain. -/
def lcase (c : Char) : Char := if isAsciiUpper c then Char.ofNat (c.toNat + 32) else c

/-- The Unicode whitespace characters of the class matched one by one
(everything outside the contiguous block U+2000 to U+200A). -/
def pySpaceChars : List Char :=
  [' ', '\t', '\n', '\r', '\x0b', '\x0c', '\x1c', '\x1d', '\x1e', '\x1f', '\x85', '\xa0',
   '\u1680', '\u2028', '\u2029', '\u202F', '\u205F', '\u3000']

/-- The character class `\s` of Python `re` on `str` (Unicode whitespace). -/
def pySpace (c : Char) : Bool :=
  decide (c ∈ pySpaceChars) || decide ('\u2000' ≤ c ∧ c ≤ '\u200A')

def digitVal (c : Char) : Option Nat :=
  if '0' ≤ c ∧ c ≤ '9' then some (c.toNat - 48) else none

-- ---------------------------------------------------------------------------
-- strptime model for the three formats used by `canonicalization_date`
-- ---------------------------------------------------------------------------

/-- Case-insensitive literal match (the CPython strptime regex is compiled
with `IGNORECASE`; `lit` is stored lowercase).  On success returns the
unconsumed remainder of the input. -/
def matchLit (lit cs : List Char) : Option (List Char) :=
  if lit.isPrefixOf (cs.map lcase) then some (cs.drop lit.length) else none

/-- C-locale abbreviated month names (`%b`). -/
def monthAbbrevs : List (List Char) :=
  ["jan", "feb", "mar", "apr", "may", "jun",
   "jul", "aug", "sep", "oct", "nov", "dec"].map String.toList

/-- C-locale full month names (`%B`). -/
def monthFulls : List (List Char) :=
  ["january", "february", "march", "april", "may", "june", "july",
   "august", "september", "october", "november", "december"].map String.toList

/-- Try each month name in turn; on success return its 1-based number and
the remainder.  No month name is a prefix of another within either table,
so trial order does not matter inside one table. -/
def matchMonthFrom (names : List (List Char)) (k : Nat) (cs : List Char) :
    Option (Nat × List Char) :=
  match names with
  | [] => none
  | n :: ns =>
    match matchLit n cs with
    | some r => some (k, r)
    | none => matchMonthFrom ns (k + 1) cs

/-- Whitespace in a strptime format string becomes `\s+`: at least one
whitespace character.  Both uses in the modelled formats are followed by a
digit, so maximal munch coincides with the regex semantics. -/
def parseWs1 : List Char → Option (List Char)
  | [] => none
  | c :: cs => if pySpace c then some (cs.dropWhile (fun d => pySpace d)) else none

/-- The two-digit alternatives of `%d` (`3[01]`, `[12]\x5cd`, `0[1-9]`), in
the order CPython's pattern lists them. -/
def parseDay2 : List Char → Option (Nat × List Char)
  | c1 :: c2 :: rest =>
    if c1 = '3' ∧ (c2 = '0' ∨ c2 = '1') then some (30 + (c2.toNat - 48), rest)
    else if (c1 = '1' ∨ c1 = '2') ∧ ('0' ≤ c2 ∧ c2 ≤ '9') then
      some ((c1.toNat - 48) * 10 + (c2.toNat - 48), rest)
    else if c1 = '0' ∧ ('1' ≤ c2 ∧ c2 ≤ '9') then some (c2.toNat - 48, rest)
    else none
  | _ => none

/-- The one-digit alternative of `%d` (`[1-9]`). -/
def parseDay1 : List Char → Option (Nat × List Char)
  | c :: rest => if '1' ≤ c ∧ c ≤ '9' then some (c.toNat - 48, rest) else none
  | [] => none

def parseDay1Comma (cs : List Char) : Option (Nat × List Char) :=
  match parseDay1 cs with
  | some (d, r) =>
    match r with
    | ',' :: r2 => some (d, r2)
    | _ => none
  | none => none

/-- `%d` immediately followed by the literal comma of the format, with the
regex backtracking from the two-digit alternatives to the one-digit one. -/
def parseDayComma (cs : List Char) : Option (Nat × List Char) :=
  match parseDay2 cs with
  | some (d, r) =>
    match r with
    | ',' :: r2 => some (d, r2)
    | _ => parseDay1Comma cs
  | none => parseDay1Comma cs

/-- `%Y`: exactly four digits. -/
def parseYear4 : List Char → Option (Nat × List Char)
  | c1 :: c2 :: c3 :: c4 :: rest =>
    match digitVal c1, digitVal c2, digitVal c3, digitVal c4 with
    | some d1, some d2, some d3, some d4 =>
      some (d1 * 1000 + d2 * 100 + d3 * 10 + d4, rest)
    | _, _, _, _ => none
  | _ => none

/-- What remains of `"%b %d, %Y"` / `"%B %d, %Y"` after the month name:
`\s+`, day, `","`, `\s+`, year, end of input.  Produces `(month, day, year)`. -/
def monthTail (m : Nat) (r1 : List Char) : Option (Nat × Nat × Nat) :=
  match parseWs1 r1 with
  | none => none
  | some r2 =>
    match parseDayComma r2 with
    | none => none
    | some (d, r3) =>
      match parseWs1 r3 with
      | none => none
      | some r4 =>
        match parseYear4 r4 with
        | none => none
        | some (y, r5) => if r5 = [] then some (m, d, y) else none

def strptime_mdY (names : List (List Char)) (cs : List Char) : Option (Nat × Nat × Nat) :=
  match matchMonthFrom names 1 cs with
  | none => none
  | some (m, r1) => monthTail m r1

def isLeapYear (y : Nat) : Bool := (y % 4 == 0 && y % 100 != 0) || y % 400 == 0

def daysInMonth (y m : Nat) : Nat :=
  if m = 2 then (if isLeapYear y then 29 else 28)
  else if m = 4 ∨ m = 6 ∨ m = 9 ∨ m = 11 then 30 else 31

/-- `datetime(year, month, day)` validity: `MINYEAR = 1` and the day must
exist in the month; an invalid date makes `strptime` raise, which the
script's `except` turns into trying the next format. -/
def mkDate : Nat × Nat × Nat → Option (Nat × Nat × Nat)
  | (m, d, y) => if 1 ≤ y ∧ d ≤ daysInMonth y m then some (m, d, y) else none

/-- `datetime.strptime(s, "%b %d, %Y")`. -/
def strptime_b (cs : List Char) : Option (Nat × Nat × Nat) :=
  (strptime_mdY monthAbbrevs cs).bind mkDate

/-- `datetime.strptime(s, "%B %d, %Y")`. -/
def strptime_B (cs : List Char) : Option (Nat × Nat × Nat) :=
  (strptime_mdY monthFulls cs).bind mkDate

/-- `datetime.strptime(s, "%Y")`: exactly four digits, month and day
defaulting to 1. -/
def strptime_Y (cs : List Char) : Option (Nat × Nat × Nat) :=
  match parseYear4 cs with
  | some (y, rest) => if rest = [] ∧ 1 ≤ y then some (1, 1, y) else none
  | none => none

def padZero (w : Nat) (s : List Char) : List Char := List.replicate (w - s.length) '0' ++ s

def natChars (n : Nat) : List Char := Nat.toDigits 10 n

/-- `datetime.strftime("%Y-%m-%d")` on `(month, day, year)`. -/
def strftime_Ymd : Nat × Nat × Nat → List Char
  | (m, d, y) =>
    padZero 4 (natChars y) ++ '-' :: (padZero 2 (natChars m) ++ '-' :: padZero 2 (natChars d))

-- ---------------------------------------------------------------------------
-- ATTRIBUTION_RE and the attribution-stripping substitution
-- ---------------------------------------------------------------------------

/-- The class `[A-Z-]` of `ATTRIBUTION_RE` (case-sensitive: the pattern is
compiled without flags). -/
def upperDash (c : Char) : Bool := isAsciiUpper c || c == '-'

/-- The class `[A-Za-z\s-]` of `ATTRIBUTION_RE`. -/
def alphaSpaceDash (c : Char) : Bool := isAsciiAlpha c || pySpace c || c == '-'

/-- Case-sensitive literal match. -/
def litCS : List Char → List Char → Option (List Char)
  | [], cs => some cs
  | l :: ls, c :: cs => if c = l then litCS ls cs else none
  | _ :: _, [] => none

/-- Greedy Kleene star over a character class with full backtracking into
the continuation `k`, as the `re` engine behaves. -/
def tryStar (p : Char → Bool) (k : List Char → Option (List Char)) :
    List Char → Option (List Char)
  | [] => k []
  | c :: cs =>
    if p c then
      match tryStar p k cs with
      | some r => some r
      | none => k (c :: cs)
    else k (c :: cs)

def attribTail2 (r : List Char) : Option (List Char) := litCS (" · ".toList) r

def attribTail1 (r : List Char) : Option (List Char) :=
  match litCS (" ".toList) r with
  | none => none
  | some r2 => tryStar alphaSpaceDash attribTail2 r2

/-- Match `ATTRIBUTION_RE = by [A-Z-]* [A-Za-z\s-]* · ` at the head of the
input; on success return the remainder after the match. -/
def matchAttrib (cs : List Char) : Option (List Char) :=
  match litCS ("by ".toList) cs with
  | none => none
  | some r1 => tryStar upperDash attribTail1 r1

/-- The substitution of `ATTRIBUTION_RE` with the empty replacement: scan
left to right, removing each leftmost non-overlapping match.  Every match
consumes at least seven characters, so fuel equal to the length of the
input never runs out. -/
def attribSubGo : Nat → List Char → List Char
  | 0, cs => cs
  | _ + 1, [] => []
  | fuel + 1, c :: cs =>
    match matchAttrib (c :: cs) with
    | some rest => attribSubGo fuel rest
    | none => c :: attribSubGo fuel cs

def attribSub (s : List Char) : List Char := attribSubGo s.length s

/-- Python `str.strip()`. -/
def pyStrip (cs : List Char) : List Char :=
  ((cs.dropWhile pySpace).reverse.dropWhile pySpace).reverse

-- ---------------------------------------------------------------------------
-- canonicalization_date
-- ---------------------------------------------------------------------------

inductive DateFormat
  | fmtB
  | fmtBig
  | fmtY
deriving DecidableEq

def strptimeFmt : DateFormat → List Char → Option (Nat × Nat × Nat)
  | .fmtB => strptime_b
  | .fmtBig => strptime_B
  | .fmtY => strptime_Y

/-- The format list of the source (abbreviated month first, then full,
then year-only). -/
def codeFormats : List DateFormat := [.fmtB, .fmtBig, .fmtY]

/-- The format order stated by the specification: full month-day-year,
abbreviated month-day-year, year-only. -/
def specFormats : List DateFormat := [.fmtBig, .fmtB, .fmtY]

/-- The format loop of `canonicalization_date`: on the first successful
parse return the `%Y-%m-%d` rendering; if every format raises, return the
input unchanged. -/
def tryFormats : List DateFormat → List Char → List Char
  | [], d => d
  | f :: fs, d =>
    match strptimeFmt f d with
    | some p => strftime_Ymd p
    | none => tryFormats fs d

/-- `canonicalization_date` of the source. -/
def canonicalization_date (s : List Char) : List Char :=
  tryFormats codeFormats (pyStrip (attribSub s))

/-- Modelled from the spec: the same canonicalizer but attempting the parse
formats in the priority order the specification states (full month-day-year
first, then abbreviated, then year-only). -/
def canonicalization_date_spec (s : List Char) : List Char :=
  tryFormats specFormats (pyStrip (attribSub s))

-- ---------------------------------------------------------------------------
-- clean_text and the no-results phrase check
-- ---------------------------------------------------------------------------

/-- A Python value handed to `clean_text`: either an actual `str`, or any
value on which `.lower()` (or the subsequent regex substitution) raises. -/
inductive PyVal
  | str (s : List Char)
  | nonstr
deriving DecidableEq

/-- `text.find(pat) >= 0`: `pat` occurs as a contiguous substring. -/
def containsSub (hay pat : List Char) : Bool :=
  match hay with
  | [] => pat.isEmpty
  | _ :: t => pat.isPrefixOf hay || containsSub t pat

/-- The complement of `CLEAN_RE = [^A-Za-z\s]+`: the characters that the
substitution keeps. -/
def cleanKeep (c : Char) : Bool := isAsciiAlpha c || pySpace c

/-- `clean_text` of the source: lowercase, strip all characters that are
neither letters nor whitespace; on any exception return the empty string. -/
def clean_text : PyVal → List Char
  | .str s => (s.map lcase).filter cleanKeep
  | .nonstr => []

def no_results_targets : List (List Char) :=
  ["no results found for", "did not match any documents"].map String.toList

/-- The phrase check at the end of `nothing_found`, applied to the cleaned
`#topstuff` text. -/
def nothing_found_text (v : PyVal) : Bool :=
  no_results_targets.any (fun t => containsSub (clean_text v) t)

-- ---------------------------------------------------------------------------
-- Page model and per-URL classification (run_scraper body)
-- ---------------------------------------------------------------------------

/-- The environment's answers to everything the per-URL body asks of the
live page.  `none` in an `Option` field means the corresponding page call
raises. -/
structure PageStep where
  /-- `search_on_google` raises (navigation failure, timeout, ...). -/
  searchThrows : Bool
  /-- Result of `page.title()`, or `none` if it raises. -/
  titleRes : Option (List Char)
  /-- `page.url`, read by `detected`. -/
  pageUrl : List Char
  /-- Text of `#topstuff` as a Python value, or `none` if waiting for or
  reading the selector raises. -/
  topstuff : Option PyVal
  /-- Success-path extraction: `none` if waiting for `#rso` or reading the
  first result's text raises; otherwise `(dateMatch, href)` where
  `dateMatch` is the substring found by `DATE_RE.search` (if any) and
  `href` is `none` if `eval_on_selector` raises. -/
  resultsBlock : Option (Option (List Char) × Option (List Char))
deriving DecidableEq

def challengePath : List Char := "https://www.google.com/sorry/".toList

/-- `detected` of the source: the session's current address starts with
Google's abuse-challenge path. -/
def detected (ps : PageStep) : Bool := challengePath.isPrefixOf ps.pageUrl

def googleSearchMark : List Char := "Google Search".toList

/-- `page.title().find('Google Search') >= 0`, false when `page.title()`
raises (the raise lands in the same `except`). -/
def titleOk (ps : PageStep) : Bool :=
  match ps.titleRes with
  | none => false
  | some t => containsSub t googleSearchMark

/-- `nothing_found` of the source: `none` when the `#topstuff` wait or read
raises past it, otherwise the phrase check on the cleaned text. -/
def nothing_found (ps : PageStep) : Option Bool :=
  match ps.topstuff with
  | none => none
  | some v => some (nothing_found_text v)

def NO_DATE_DETECTED : List Char := "NO_DATE_DETECTED".toList

def SCRAPER_DETECTED : List Char := "SCRAPER_DETECTED".toList

def NO_RESULTS : List Char := "NO_RESULTS".toList

def ERROR : List Char := "ERROR".toList

/-- `extract_information_from_results` of the source: raises (`none`) when
the results selector or the href lookup raises; otherwise the canonicalized
date match (or the `NO_DATE_DETECTED` sentinel) and the resolved href. -/
def extract_information_from_results (ps : PageStep) : Option (List Char × List Char) :=
  match ps.resultsBlock with
  | none => none
  | some (dateM, hrefM) =>
    match hrefM with
    | none => none
    | some href =>
      match dateM with
      | none => some (NO_DATE_DETECTED, href)
      | some dtxt => some (canonicalization_date dtxt, href)

/-- The four per-URL outcomes of the body of `run_scraper`. -/
inductive Outcome
  | blocked
  | noResults
  | success (date href : List Char)
  | error
deriving DecidableEq

/-- The try/except/else nest of the per-URL body: an exception in
`search_on_google` or `nothing_found` or the extraction lands in an
`except` that yields `ERROR`; a failed title assertion, a raising
`page.title()`, or a detected challenge address yields `blocked`. -/
def classifyStep (ps : PageStep) : Outcome :=
  if ps.searchThrows then .error
  else if !titleOk ps || detected ps then .blocked
  else
    match nothing_found ps with
    | none => .error
    | some true => .noResults
    | some false =>
      match extract_information_from_results ps with
      | none => .error
      | some (d, h) => .success d h

/-- The `(date_url, dated_url)` pair each outcome records. -/
def outputPair : Outcome → List Char × List Char
  | .blocked => (SCRAPER_DETECTED, SCRAPER_DETECTED)
  | .noResults => (NO_RESULTS, NO_RESULTS)
  | .error => (ERROR, ERROR)
  | .success d h => (d, h)

-- ---------------------------------------------------------------------------
-- Orchestrator loop, events and output store
-- ---------------------------------------------------------------------------

structure UrlRecord where
  url_id : List Char
  url : List Char
deriving DecidableEq

inductive Event
  | wait (secs : Nat)
  | write (row : UrlRecord) (date href : List Char)
  | abort
deriving DecidableEq

/-- `comply_with_terms_of_use`: 60 s with a proxy configuration, 180 s
without. -/
def rateLimitSecs (useProxy : Bool) : Nat := if useProxy then 60 else 180

/-- The two-hour sleep that the blocked branch performs before leaving the
`except` handler. -/
def cooldownEvents : Outcome → List Event
  | .blocked => [Event.wait 7200]
  | _ => []

/-- The observable events of one iteration of the loop body: the blocked
branch sleeps 7200 s inside its handler, then the `finally` block writes
the row and runs the rate limiter. -/
def stepEvents (useProxy : Bool) (row : UrlRecord) (ps : PageStep) : List Event :=
  cooldownEvents (classifyStep ps) ++
  [Event.write row (outputPair (classifyStep ps)).1 (outputPair (classifyStep ps)).2,
   Event.wait (rateLimitSecs useProxy)]

/-- `rotate_proxy` runs before the guarded region when a proxy is
configured, the index is nonzero and divisible by ten; `rotFail idx = true`
means it raises there (e.g. the rotation HTTP request fails). -/
def rotationAborts (useProxy : Bool) (rotFail : Nat → Bool) (idx : Nat) : Bool :=
  useProxy && decide (idx ≠ 0) && decide (idx % 10 = 0) && rotFail idx

/-- The per-URL loop the body of lines 248-294 spells out, iteration by
iteration.  This loop is unreachable in the program as written: the loop
header raises before its first iteration (see `run_scraper`). -/
def runFrom (env : Nat → PageStep) (useProxy : Bool) (rotFail : Nat → Bool) :
    List UrlRecord → Nat → List Event
  | [], _ => []
  | row :: rows, idx =>
    if rotationAborts useProxy rotFail idx then [Event.abort]
    else stepEvents useProxy row (env idx) ++ runFrom env useProxy rotFail rows (idx + 1)

/-- `run_scraper` of the source: the unconditional session-start rotation
(when a proxy is configured) can raise; after that, the loop header
`tqdm(data.iterrows(), tot = len(data))` passes the unknown keyword `tot`
(the tqdm parameter is named `total`), so tqdm raises `TqdmKeyError` at
construction, before the first row is ever obtained.  Every call therefore
terminates with an exception having performed no iteration of `runFrom`
and written no output row. -/
def run_scraper (_env : Nat → PageStep) (useProxy : Bool) (initRotFail : Bool)
    (_rotFail : Nat → Bool) (_rows : List UrlRecord) : List Event :=
  if useProxy && initRotFail then [Event.abort]
  else [Event.abort]

/-- One data line of the tab-separated output store. -/
structure OutRow where
  url_id : List Char
  url : List Char
  date_url : List Char
  dated_url : List Char
deriving DecidableEq

/-- The rows appended by `write_results` during a run, in order. -/
def writesOf (tr : List Event) : List OutRow :=
  tr.filterMap fun e =>
    match e with
    | Event.write row d h => some ⟨row.url_id, row.url, d, h⟩
    | _ => none

/-- Claim C3: for every page state, the per-URL classification lands in
exactly one of the four outcomes (blocked, no-results, success, error); no
exception escapes — every raising page interaction is routed to one of the
four by the try/except nest. -/
theorem classification_total (ps : PageStep) :
    (classifyStep ps = .blocked ∧ classifyStep ps ≠ .noResults ∧
      (∀ d h, classifyStep ps ≠ .success d h) ∧ classifyStep ps ≠ .error) ∨
    (classifyStep ps ≠ .blocked ∧ classifyStep ps = .noResults ∧
      (∀ d h, classifyStep ps ≠ .success d h) ∧ classifyStep ps ≠ .error) ∨
    (classifyStep ps ≠ .blocked ∧ classifyStep ps ≠ .noResults ∧
      (∃ d h, classifyStep ps = .success d h) ∧ classifyStep ps ≠ .error) ∨
    (classifyStep ps ≠ .blocked ∧ classifyStep ps ≠ .noResults ∧
      (∀ d h, classifyStep ps ≠ .success d h) ∧ classifyStep ps = .error) := by
  cases h : classifyStep ps with
  | blocked => exact Or.inl (by simp)
  | noResults => exact Or.inr (Or.inl (by simp))
  | success d h2 => exact Or.inr (Or.inr (Or.inl (by simp)))
  | error => exact Or.inr (Or.inr (Or.inr (by simp)))

/-- Claim C9: every iteration of the loop body, whatever the outcome, ends
with the write of the row followed by the unconditional rate-limit wait:
180 s without a proxy configuration, 60 s with one. -/
theorem rate_limit_after_every_url (useProxy : Bool) (row : UrlRecord) (ps : PageStep) :
    rateLimitSecs false = 180 ∧ rateLimitSecs true = 60 ∧
    ∃ pre d h, stepEvents useProxy row ps =
      pre ++ [Event.write row d h, Event.wait (rateLimitSecs useProxy)] :=
  ⟨rfl, rfl, cooldownEvents (classifyStep ps), (outputPair (classifyStep ps)).1,
    (outputPair (classifyStep ps)).2, rfl⟩

/-- Claim C10: `clean_text` never lets an exception out: on a value whose
lowercasing or regex substitution raises it returns the empty string, and
the no-results phrase check then matches no phrase at all. -/
theorem clean_text_total_on_raising_input :
    clean_text PyVal.nonstr = [] ∧ nothing_found_text PyVal.nonstr = false ∧
    (∀ t ∈ no_results_targets, containsSub (clean_text PyVal.nonstr) t = false) := by
  decide

-- ---------------------------------------------------------------------------
-- Claim theorems: date canonicalizer on "by J Doe · 2010" and pass-through
-- ---------------------------------------------------------------------------

/-- Claim C4 (counterexample): on `"by J Doe · 2010"` the canonicalizer
does return `"2010-01-01"`, refuting the claim's assertion that it does
not. -/
theorem c4_counterexample :
    canonicalization_date "by J Doe · 2010".toList = "2010-01-01".toList := by
  decide

/-- Claim C4 (amended): the attribution clause is stripped, leaving
`"2010"`; the two month-day-year formats fail on it; the year-only parse
succeeds with month and day defaulting to 1; and the single output format
`%Y-%m-%d` therefore renders `"2010-01-01"`. -/
theorem year_only_parse_renders_jan_first :
    pyStrip (attribSub "by J Doe · 2010".toList) = "2010".toList ∧
    strptime_b "2010".toList = none ∧
    strptime_B "2010".toList = none ∧
    strptime_Y "2010".toList = some (1, 1, 2010) ∧
    canonicalization_date "by J Doe · 2010".toList = "2010-01-01".toList := by
  decide

theorem tryFormats_all_fail {fs : List DateFormat} {d : List Char}
    (h : ∀ f ∈ fs, strptimeFmt f d = none) : tryFormats fs d = d := by
  induction fs with
  | nil => rfl
  | cons f fs ih =>
    unfold tryFormats
    rw [h f (List.mem_cons_self f fs)]
    exact ih (fun g hg => h g (List.mem_cons_of_mem f hg))

/-- Claim C8: when no date format parses the attribution-stripped, trimmed
input, `canonicalization_date` returns that stripped and trimmed text
unchanged — no sentinel, no exception. -/
theorem unparseable_returns_stripped_input (s : List Char)
    (h : ∀ f ∈ codeFormats, strptimeFmt f (pyStrip (attribSub s)) = none) :
    canonicalization_date s = pyStrip (attribSub s) :=
  tryFormats_all_fail h

theorem unparseable_returns_stripped_input_witness :
    (∀ f ∈ codeFormats, strptimeFmt f (pyStrip (attribSub "no date here".toList)) = none) ∧
    canonicalization_date "no date here".toList = pyStrip (attribSub "no date here".toList) :=
  ⟨by decide, unparseable_returns_stripped_input "no date here".toList (by decide)⟩

-- ---------------------------------------------------------------------------
-- Claim theorems: blocked branch ordering and blocked condition
-- ---------------------------------------------------------------------------

/-- A page state that classifies as blocked: the session address sits on
the abuse-challenge path. -/
def psBlocked : PageStep :=
  ⟨false, some "q - Google Search".toList, "https://www.google.com/sorry/index?continue=x".toList,
   none, none⟩

def rowX : UrlRecord := ⟨"1".toList, "https://a.example".toList⟩

def blockedTrace : List Event := stepEvents false rowX psBlocked

/-- Claim C5 (counterexample): on a blocked query the loop body sleeps the
two-hour cooldown first and only then writes the sentinel record, so there
is no position of the trace where the sentinel write precedes the
cooldown. -/
theorem c5_counterexample :
    blockedTrace =
      [Event.wait 7200, Event.write rowX SCRAPER_DETECTED SCRAPER_DETECTED, Event.wait 180] ∧
    ¬ ∃ i j : Fin blockedTrace.length, (i : Nat) < (j : Nat) ∧
        blockedTrace.get i = Event.write rowX SCRAPER_DETECTED SCRAPER_DETECTED ∧
        blockedTrace.get j = Event.wait 7200 := by
  decide

/-- Claim C5 (amended): on a blocked query the session first sleeps the
two-hour cooldown inside the except handler, then the `finally` block
writes the sentinel pair and runs the ordinary rate-limit wait before the
next URL. -/
theorem blocked_cooldown_before_record (useProxy : Bool) (row : UrlRecord) (ps : PageStep)
    (h : classifyStep ps = .blocked) :
    stepEvents useProxy row ps =
      [Event.wait 7200, Event.write row SCRAPER_DETECTED SCRAPER_DETECTED,
       Event.wait (rateLimitSecs useProxy)] := by
  unfold stepEvents
  rw [h]
  rfl

theorem blocked_cooldown_before_record_witness :
    classifyStep psBlocked = .blocked ∧
    stepEvents false rowX psBlocked =
      [Event.wait 7200, Event.write rowX SCRAPER_DETECTED SCRAPER_DETECTED,
       Event.wait (rateLimitSecs false)] :=
  ⟨by decide, blocked_cooldown_before_record false rowX psBlocked (by decide)⟩

/-- A page state whose address is not on the challenge path but whose title
does not read as a results page. -/
def psTitleBad : PageStep :=
  ⟨false, some "Example Domain".toList, "https://www.google.com/search?q=x".toList,
   some (.str "anything".toList), some (none, some "https://r.example".toList)⟩

/-- Claim C6 (counterexample): this page classifies as blocked although its
address does not start with the abuse-challenge path, so blocked is not
equivalent to the challenge-path test. -/
theorem c6_counterexample :
    classifyStep psTitleBad = Outcome.blocked ∧ detected psTitleBad = false := by
  decide

/-- Claim C6 (amended): when query submission succeeded, the blocked
outcome fires exactly when the title assertion fails (the title misses
`'Google Search'` or reading it raises) or the session address starts with
the abuse-challenge path. -/
theorem blocked_iff_title_or_challenge (ps : PageStep) (h : ps.searchThrows = false) :
    classifyStep ps = .blocked ↔ (titleOk ps = false ∨ detected ps = true) := by
  unfold classifyStep
  rw [h]
  simp only [Bool.false_eq_true, if_false]
  constructor
  · intro hb
    by_cases hc : (!titleOk ps || detected ps) = true
    · rcases Bool.or_eq_true_iff.mp hc with h1 | h1
      · exact Or.inl (by simpa using h1)
      · exact Or.inr h1
    · rw [if_neg hc] at hb
      exfalso
      cases hnf : nothing_found ps with
      | none => rw [hnf] at hb; exact Outcome.noConfusion hb
      | some b =>
        rw [hnf] at hb
        cases b with
        | true => exact Outcome.noConfusion hb
        | false =>
          cases hx : extract_information_from_results ps with
          | none => rw [hx] at hb; exact Outcome.noConfusion hb
          | some dh => rw [hx] at hb; exact Outcome.noConfusion hb
  · intro hc
    have : (!titleOk ps || detected ps) = true := by
      rcases hc with h1 | h1
      · exact Bool.or_eq_true_iff.mpr (Or.inl (by rw [h1]; rfl))
      · exact Bool.or_eq_true_iff.mpr (Or.inr h1)
    rw [if_pos this]

theorem blocked_iff_title_or_challenge_witness :
    psTitleBad.searchThrows = false ∧
    (classifyStep psTitleBad = .blocked ↔
      (titleOk psTitleBad = false ∨ detected psTitleBad = true)) :=
  ⟨rfl, blocked_iff_title_or_challenge psTitleBad rfl⟩

-- ---------------------------------------------------------------------------
-- Claim theorems: run-level behaviour (the loop header raises)
-- ---------------------------------------------------------------------------

/-- Claim C1 (code bug): the claim states the intent the specification
spells out — exactly one output row per pending record — but the loop
header of `run_scraper` passes tqdm the unknown keyword `tot` and raises
`TqdmKeyError` before obtaining the first row, so every run, on every
environment and every pending set, terminates with the exception having
appended no output row at all. -/
theorem run_scraper_aborts_before_loop (env : Nat → PageStep)
    (useProxy initRotFail : Bool) (rotFail : Nat → Bool) (rows : List UrlRecord) :
    run_scraper env useProxy initRotFail rotFail rows = [Event.abort] ∧
    writesOf (run_scraper env useProxy initRotFail rotFail rows) = [] := by
  have h : run_scraper env useProxy initRotFail rotFail rows = [Event.abort] := by
    unfold run_scraper
    split <;> rfl
  exact ⟨h, by rw [h]; rfl⟩

-- ---------------------------------------------------------------------------
-- Format-order equivalence (claim C7)
-- ---------------------------------------------------------------------------
theorem isPrefixOf_spec : ∀ l1 l2 : List Char, l1.isPrefixOf l2 = true → l1 <+: l2 := by
  intro l1
  induction l1 with
  | nil => intro l2 h; exact ⟨l2, rfl⟩
  | cons a as ih =>
    intro l2 h
    cases l2 with
    | nil => simp [List.isPrefixOf] at h
    | cons b bs =>
      simp only [List.isPrefixOf, Bool.and_eq_true, beq_iff_eq] at h
      obtain ⟨hab, hpre⟩ := h
      obtain ⟨t, ht⟩ := ih bs hpre
      exact ⟨t, by rw [List.cons_append, hab, ht]⟩

theorem agree_of_prefixes {l1 l2 L : List Char} (h1 : l1 <+: L) (h2 : l2 <+: L)
    (hlen : l1.length = l2.length) : l1 = l2 := by
  obtain ⟨t1, ht1⟩ := h1
  obtain ⟨t2, ht2⟩ := h2
  rw [← ht2] at ht1
  exact (List.append_inj ht1 hlen).1

theorem matchLit_some {lit cs r : List Char} (h : matchLit lit cs = some r) :
    lit <+: cs.map lcase ∧ r = cs.drop lit.length := by
  unfold matchLit at h
  split at h
  · next hp =>
    exact ⟨isPrefixOf_spec _ _ hp, (Option.some.inj h).symm⟩
  · simp at h

theorem matchMonthFrom_spec {m : Nat} {r : List Char} :
    ∀ (names : List (List Char)) (k : Nat) (cs : List Char),
      matchMonthFrom names k cs = some (m, r) →
      ∃ i, ∃ hi : i < names.length,
        m = k + i ∧ matchLit (names.get ⟨i, hi⟩) cs = some r := by
  intro names
  induction names with
  | nil => intro k cs h; simp [matchMonthFrom] at h
  | cons n ns ih =>
    intro k cs h
    unfold matchMonthFrom at h
    cases hl : matchLit n cs with
    | some r2 =>
      rw [hl] at h
      simp only [Option.some.injEq, Prod.mk.injEq] at h
      obtain ⟨hk, hr⟩ := h
      exact ⟨0, Nat.succ_pos _, by omega, by rw [hr] at hl; exact hl⟩
    | none =>
      rw [hl] at h
      obtain ⟨i, hi, hm2, hml⟩ := ih (k + 1) cs h
      exact ⟨i + 1, Nat.succ_lt_succ hi, by omega, hml⟩

theorem monthAbbrevs_len : monthAbbrevs.length = 12 := rfl

theorem monthFulls_len : monthFulls.length = 12 := rfl

theorem monthAbbrevs_nodup : monthAbbrevs.Nodup := by decide

theorem monthAbbrevs_length3 : ∀ i < 12, (monthAbbrevs.getD i []).length = 3 := by decide

theorem monthFulls_ge3 : ∀ i < 12, 3 ≤ (monthFulls.getD i []).length := by decide

theorem monthFulls_no_space : ∀ i < 12, ∀ c ∈ monthFulls.getD i [], pySpace c = false := by
  decide

theorem monthFulls_take3 :
    ∀ i < 12, (monthFulls.getD i []).take 3 = monthAbbrevs.getD i [] := by decide

theorem lcase_of_pySpace {c : Char} (h : pySpace c = true) : lcase c = c := by
  unfold lcase
  rw [if_neg]
  intro hup
  unfold isAsciiUpper at hup
  rw [decide_eq_true_eq] at hup
  obtain ⟨h1, h2⟩ := hup
  unfold pySpace at h
  rw [Bool.or_eq_true, decide_eq_true_eq, decide_eq_true_eq] at h
  rcases h with h | ⟨hr1, hr2⟩
  · fin_cases h <;> simp_all
  · exact absurd (le_trans hr1 h2) (by decide)

theorem monthTail_ws {m : Nat} {r : List Char} {p : Nat × Nat × Nat}
    (h : monthTail m r = some p) : ∃ r2, parseWs1 r = some r2 := by
  unfold monthTail at h
  cases hw : parseWs1 r with
  | none => rw [hw] at h; simp at h
  | some r2 => exact ⟨r2, rfl⟩

theorem parseWs1_head {c : Char} {cs r : List Char} (h : parseWs1 (c :: cs) = some r) :
    pySpace c = true := by
  cases hsp : pySpace c with
  | true => rfl
  | false => simp [parseWs1, hsp] at h

theorem mdY_agree {cs : List Char} {p q : Nat × Nat × Nat}
    (hb : strptime_mdY monthAbbrevs cs = some p)
    (hB : strptime_mdY monthFulls cs = some q) : p = q := by
  unfold strptime_mdY at hb hB
  cases hmb : matchMonthFrom monthAbbrevs 1 cs with
  | none => rw [hmb] at hb; simp at hb
  | some mr =>
    cases hmB : matchMonthFrom monthFulls 1 cs with
    | none => rw [hmB] at hB; simp at hB
    | some mr2 =>
      obtain ⟨m, r1⟩ := mr
      obtain ⟨m2, r2⟩ := mr2
      rw [hmb] at hb
      rw [hmB] at hB
      obtain ⟨i, hi, hmi, hli⟩ := matchMonthFrom_spec monthAbbrevs 1 cs hmb
      obtain ⟨j, hj, hmj, hlj⟩ := matchMonthFrom_spec monthFulls 1 cs hmB
      rw [List.get_eq_getElem] at hli hlj
      obtain ⟨hpi, hri⟩ := matchLit_some hli
      obtain ⟨hpj, hrj⟩ := matchLit_some hlj
      have hi12 : i < 12 := by rw [monthAbbrevs_len] at hi; exact hi
      have hj12 : j < 12 := by rw [monthFulls_len] at hj; exact hj
      have hj2 : j < monthAbbrevs.length := by rw [monthAbbrevs_len]; exact hj12
      have hA3 : (monthAbbrevs[i]).length = 3 := by
        have h3 := monthAbbrevs_length3 i hi12
        rwa [List.getD_eq_getElem _ _ hi] at h3
      have hF3 : 3 ≤ (monthFulls[j]).length := by
        have h3 := monthFulls_ge3 j hj12
        rwa [List.getD_eq_getElem _ _ hj] at h3
      have htake : (monthFulls[j]).take 3 = monthAbbrevs[j] := by
        have h3 := monthFulls_take3 j hj12
        rwa [List.getD_eq_getElem _ _ hj, List.getD_eq_getElem _ _ hj2] at h3
      have htp : (monthFulls[j]).take 3 <+: cs.map lcase :=
        List.IsPrefix.trans ⟨(monthFulls[j]).drop 3, List.take_append_drop 3 _⟩ hpj
      have hlen_take : ((monthFulls[j]).take 3).length = 3 := by
        rw [List.length_take]
        omega
      have hAF : monthAbbrevs[i] = (monthFulls[j]).take 3 :=
        agree_of_prefixes hpi htp (by rw [hA3, hlen_take])
      have hij : i = j := by
        have hgets : monthAbbrevs.get ⟨i, hi⟩ = monthAbbrevs.get ⟨j, hj2⟩ := by
          rw [List.get_eq_getElem, List.get_eq_getElem]
          rw [hAF, htake]
        have hfin := (monthAbbrevs_nodup.get_inj_iff).mp hgets
        exact congrArg Fin.val hfin
      have hm : m = m2 := by omega
      by_cases hFlen : (monthFulls[j]).length = 3
      · have hr12 : r1 = r2 := by
          rw [hri, hrj, hA3, hFlen]
        rw [hm, hr12] at hb
        rw [hb] at hB
        exact Option.some.inj hB
      · exfalso
        have hF4 : 3 < (monthFulls[j]).length := by omega
        have hMlen : (monthFulls[j]).length ≤ (cs.map lcase).length :=
          hpj.length_le
        have hcs : 3 < cs.length := by
          rw [List.length_map] at hMlen
          omega
        obtain ⟨r2w, hw⟩ := monthTail_ws hb
        rw [hri, hA3, List.drop_eq_getElem_cons hcs] at hw
        have hsp : pySpace cs[3] = true := parseWs1_head hw
        have hM3lt : 3 < (cs.map lcase).length := by rw [List.length_map]; exact hcs
        have hM3 : (monthFulls[j])[3] = (cs.map lcase)[3] := hpj.getElem hF4
        have hM3b : (cs.map lcase)[3] = lcase cs[3] := List.getElem_map lcase
        have hnos : pySpace ((monthFulls[j])[3]) = false := by
          have hns := monthFulls_no_space j hj12 ((monthFulls[j])[3])
          apply hns
          rw [List.getD_eq_getElem _ _ hj]
          exact List.getElem_mem hF4
        rw [lcase_of_pySpace hsp] at hM3b
        rw [hM3b] at hM3
        rw [hM3] at hnos
        rw [hsp] at hnos
        exact Bool.noConfusion hnos

theorem strptime_bB_agree {cs : List Char} {p q : Nat × Nat × Nat}
    (hb : strptime_b cs = some p) (hB : strptime_B cs = some q) : p = q := by
  unfold strptime_b at hb
  unfold strptime_B at hB
  rcases Option.bind_eq_some.mp hb with ⟨u, hu, hmu⟩
  rcases Option.bind_eq_some.mp hB with ⟨v, hv, hmv⟩
  have huv : u = v := mdY_agree hu hv
  rw [huv] at hmu
  rw [hmu] at hmv
  exact Option.some.inj hmv

/-- Claim C7: the canonicalizer returns the same result as the reference
definition that attempts the formats in the specification's order (full
month-day-year first, then abbreviated, then year-only): the only inputs
both month formats accept start with "may", where the two parses and hence
the two orders coincide. -/
theorem canonicalization_order_equiv (s : List Char) :
    canonicalization_date s = canonicalization_date_spec s := by
  unfold canonicalization_date canonicalization_date_spec codeFormats specFormats
  cases hb : strptime_b (pyStrip (attribSub s)) with
  | some p =>
    cases hB : strptime_B (pyStrip (attribSub s)) with
    | some q =>
      have h := strptime_bB_agree hb hB
      simp [tryFormats, strptimeFmt, hb, hB, h]
    | none => simp [tryFormats, strptimeFmt, hb, hB]
  | none =>
    cases hB : strptime_B (pyStrip (attribSub s)) with
    | some q => simp [tryFormats, strptimeFmt, hb, hB]
    | none => simp [tryFormats, strptimeFmt, hb, hB]
